import Mathlib

/-!
Verification of the shard-constrained HD-key search of `hdKeysGenerator`
(`hdKeysGenerator/main.go`).

The embedding models the code of `main.go` directly:
`inlineSortKeysByIndexes` (its comparator, and the insertion-sort pass that
Go's `sort.Slice` performs on slices of length at most 12), the iteration
loop of `generateKeysInParallel`, and the call sequence of `generateKeys`
(constraint validation, search, truncation `generatedKeys[:numKeys]`).

Parts of the package that are referenced from `main.go` but whose files are
not available (`newConstraints`, `createTasks`, `task.doGenerateKeys`, the
`common.GeneratedKey` record) are modelled from the specification; each such
definition carries a doc comment starting with `Modelled from the spec:`.

The loop of `generateKeysInParallel` has no termination guarantee (its
condition depends on how many derived keys satisfy the constraints), so it
is embedded with a fuel argument: a result of `none` means the loop has not
returned within the given number of iterations.
-/

namespace HDKeysGenerator

/-- Modelled from the spec: §3 `GeneratedKey`:
`{accountIndex, addressIndex, publicKey/address, privateKey}` — the record
`common.GeneratedKey` produced by the key deriver (its defining file is not
available; only the two index fields are inspected by the code under
study). -/
structure GeneratedKey where
  accountIndex : Nat
  addressIndex : Nat
  address : List Nat
  privateKey : List Nat
deriving DecidableEq, Repr

/-- Comparator of `inlineSortKeysByIndexes` (main.go:173-185), verbatim:
`if a.AccountIndex < b.AccountIndex { return true };
 if a.AddressIndex < b.AddressIndex { return true }; return false`. -/
def lessKeys (a b : GeneratedKey) : Bool :=
  if a.accountIndex < b.accountIndex then true
  else if a.addressIndex < b.addressIndex then true
  else false

/-- Correct strict lexicographic order on `(accountIndex, addressIndex)`:
account index first, address index only on equal account indices (the
order the spec requires). -/
def lexLessKeys (a b : GeneratedKey) : Bool :=
  a.accountIndex < b.accountIndex ||
    (a.accountIndex == b.accountIndex && a.addressIndex < b.addressIndex)

/-- Decides whether a list of keys is sorted ascending by
`(accountIndex, addressIndex)` in the lexicographic sense: every adjacent
pair is non-decreasing. -/
def keysSortedLex : List GeneratedKey → Bool
  | [] => true
  | [_] => true
  | a :: b :: rest => !(lexLessKeys b a) && keysSortedLex (b :: rest)

/-- Inner step of the insertion sort performed by Go's `sort.Slice` (the
`insertionSort` routine of package `sort`, which `sort.Slice` runs on every
slice of length at most 12): the freshly considered element `x` is bubbled
leftwards through the already-processed prefix while `less(x, leftNeighbor)`
holds.  The prefix is held in reverse (head = rightmost element), matching
the right-to-left walk of the bubbling loop. -/
def insertGoRev (x : GeneratedKey) : List GeneratedKey → List GeneratedKey
  | [] => [x]
  | y :: ys => if lessKeys x y then y :: insertGoRev x ys else x :: y :: ys

/-- Left-to-right pass of Go's insertion sort: each element of the input is
bubbled into the reversed processed prefix; the final prefix is reversed
back. -/
def insertionSortGoAux : List GeneratedKey → List GeneratedKey → List GeneratedKey
  | revPrefix, [] => revPrefix.reverse
  | revPrefix, x :: rest => insertionSortGoAux (insertGoRev x revPrefix) rest

/-- Model of `inlineSortKeysByIndexes` (main.go:172-186): `sort.Slice` with
the comparator `lessKeys`.  For slices of length at most 12 Go's `sort.Slice`
performs exactly this insertion sort; for a comparator that is not a strict
weak ordering (which `lessKeys` is not) the output of `sort.Slice` is
implementation-defined, and this insertion-sort pass is the behaviour of the
implementation on the small inputs studied here. -/
def inlineSortKeysByIndexes (keys : List GeneratedKey) : List GeneratedKey :=
  insertionSortGoAux [] keys

/-- Error kinds of the search (spec §7): configuration errors detected by
`newConstraints`, derivation errors raised by the key-derivation
collaborator, and the cancellation error the spec associates with an
external cancellation signal. -/
inductive SearchError where
  | configurationError
  | derivationError (accountIndex addressIndex : Nat)
  | cancellationError
deriving DecidableEq, Repr

/-- Modelled from the spec: §3 `Constraints`
`{numShards, actualShard: optional, projectedShard: optional}` (the file
defining the `constraints` record of the package is not available). -/
structure Constraints where
  numShards : Nat
  actualShard : Option Nat
  projectedShard : Option Nat
deriving DecidableEq, Repr

/-- Validity of one optional shard constraint against `numShards`
(spec §3 invariant: if present, the shard value is below `numShards`). -/
def shardOk (numShards : Nat) : Option Nat → Bool
  | none => true
  | some s => s < numShards

/-- Modelled from the spec: `newConstraints` (called at main.go:50; its
defining file is not available).  Spec §3/§7: `numShards >= 1`, and any
present `actualShard`/`projectedShard` below `numShards`, validated eagerly;
inconsistent values yield a configuration error. -/
def newConstraints (numShards : Nat) (actualShard projectedShard : Option Nat) :
    Except SearchError Constraints :=
  if numShards < 1 then .error .configurationError
  else if !shardOk numShards actualShard then .error .configurationError
  else if !shardOk numShards projectedShard then .error .configurationError
  else .ok ⟨numShards, actualShard, projectedShard⟩

/-- Modelled from the spec: §4.1 `ConstraintEvaluator.satisfies` — a pure
predicate composing a pluggable shard-assignment function with the requested
constraints; an absent `actualShard`/`projectedShard` is unconstrained on
that axis. -/
def satisfiesConstraints (shardOfActual shardOfProjected : GeneratedKey → Nat)
    (c : Constraints) (k : GeneratedKey) : Bool :=
  (match c.actualShard with
   | none => true
   | some s => shardOfActual k == s) &&
  (match c.projectedShard with
   | none => true
   | some s => shardOfProjected k == s)

/-- Modelled from the spec: §3 `SearchTask`
`{rangeStart, rangeEnd, useAccountIndexOnly}` — one worker's contiguous
slice of the index space for one iteration. -/
structure SearchTask where
  rangeStart : Nat
  rangeEnd : Nat
  useAccountIndexOnly : Bool
deriving DecidableEq, Repr

/-- Modelled from the spec: §4.2 `IndexAllocator.nextBatch` / the
`createTasks` call at main.go:133 (its defining file is not available).
Partitions `[slidingIndex, slidingIndex + numTasks*taskWidth)` into
`numTasks` equal, contiguous, non-overlapping sub-ranges in increasing
order; `newSlidingIndex = slidingIndex + numTasks*taskWidth`. -/
def createTasks (numTasks slidingIndex taskWidth : Nat) (useAccountIndex : Bool) :
    List SearchTask × Nat :=
  (((List.range numTasks).map fun i =>
      { rangeStart := slidingIndex + i * taskWidth
        rangeEnd := slidingIndex + (i + 1) * taskWidth
        useAccountIndexOnly := useAccountIndex }),
    slidingIndex + numTasks * taskWidth)

/-- Modelled from the spec: §6 `useAccountIndexOnly` — the search varies the
account index (address index pinned to 0) when the flag is set, and the
address index otherwise. -/
def indexToPair (useAccountIndexOnly : Bool) (i : Nat) : Nat × Nat :=
  if useAccountIndexOnly then (i, 0) else (0, i)

/-- Derivation indexes of one task: the half-open range
`[rangeStart, rangeEnd)` in increasing order. -/
def taskIndexes (t : SearchTask) : List Nat :=
  List.range' t.rangeStart (t.rangeEnd - t.rangeStart)

/-- Modelled from the spec: §4.3 step 2 — one worker's sequential scan.  For
every index of its list, in increasing order, the worker derives the key via
the key deriver (`derive`), evaluates the constraint predicate (`sat`), and
appends matches to its worker-local buffer.  A derivation error is fatal and
not retried (spec §7).  The second component counts derivation calls made. -/
def scanIndexes (derive : Nat → Nat → Except SearchError GeneratedKey)
    (sat : GeneratedKey → Bool) (useAccountIndexOnly : Bool) :
    List Nat → Except SearchError (List GeneratedKey) × Nat
  | [] => (.ok [], 0)
  | i :: rest =>
    let p := indexToPair useAccountIndexOnly i
    match derive p.1 p.2 with
    | .error e => (.error e, 1)
    | .ok k =>
      let r := scanIndexes derive sat useAccountIndexOnly rest
      (match r.1 with
       | .error e => .error e
       | .ok ks => .ok (if sat k then k :: ks else ks), r.2 + 1)

/-- Modelled from the spec: `task.doGenerateKeys(mnemonic, constraints)`
(main.go:140; its defining file is not available): scan the task's index
range.  The deriver `derive` already closes over the seed (mnemonic), and
`sat` over the constraints. -/
def doGenerateKeys (derive : Nat → Nat → Except SearchError GeneratedKey)
    (sat : GeneratedKey → Bool) (t : SearchTask) :
    Except SearchError (List GeneratedKey) × Nat :=
  scanIndexes derive sat t.useAccountIndexOnly (taskIndexes t)

/-- First error among the per-worker results, in the given order (the
`errgroup` of main.go:135-161 records the first error returned by a
worker; here the list order stands for the order consulted). -/
def firstErrorIn : List (Except SearchError (List GeneratedKey)) → Option SearchError
  | [] => none
  | .error e :: _ => some e
  | .ok _ :: rest => firstErrorIn rest

/-- Keys of a successful worker result; an errored worker leaves its slot of
`generatedKeysByTask` empty (main.go:138-148). -/
def okKeys : Except SearchError (List GeneratedKey) → List GeneratedKey
  | .ok ks => ks
  | .error _ => []

/-- Loop of `generateKeysInParallel` (main.go:131-169), with a fuel bound on
the number of iterations.  State per call: remaining fuel, `slidingIndex`,
the accumulator `allGeneratedKeys`, and the running count of derivation
calls.  While `len(allGeneratedKeys) < numKeys`: create the next batch of
tasks, run every task, fail fast with the first worker error (`return nil,
err`), otherwise append all task outputs in task order and continue.  On
loop exit the accumulator is sorted by `inlineSortKeysByIndexes` and
returned with a nil error.  `none` means the fuel ran out before the loop
returned. -/
def searchLoopAux (derive : Nat → Nat → Except SearchError GeneratedKey)
    (sat : GeneratedKey → Bool) (numKeys numTasks taskWidth : Nat) (useAcc : Bool) :
    Nat → Nat → List GeneratedKey → Nat →
      Option ((List GeneratedKey × Option SearchError) × Nat)
  | 0, _slidingIndex, acc, count =>
    if acc.length < numKeys then none
    else some ((inlineSortKeysByIndexes acc, none), count)
  | fuel' + 1, slidingIndex, acc, count =>
    if acc.length < numKeys then
      let tn := createTasks numTasks slidingIndex taskWidth useAcc
      let results := tn.1.map (doGenerateKeys derive sat)
      let count' := count + (results.map Prod.snd).sum
      match firstErrorIn (results.map Prod.fst) with
      | some e => some (([], some e), count')
      | none =>
        searchLoopAux derive sat numKeys numTasks taskWidth useAcc fuel'
          tn.2 (acc ++ (results.map (fun r => okKeys r.1)).flatten) count'
    else
      some ((inlineSortKeysByIndexes acc, none), count)

/-- Search parameters drawn from `parsedCliFlags` (spec §6): requested key
count, parallel task count, start index, per-task range width, and the
`useAccountIndex` flag. -/
structure SearchParams where
  numKeys : Nat
  numTasks : Nat
  startIndex : Nat
  taskWidth : Nat
  useAccountIndex : Bool
deriving DecidableEq, Repr

/-- Model of `generateKeysInParallel` (main.go:109-170).  The context
argument is received but never consulted for control: main.go:137 discards
the context derived by `errgroup.WithContext` (`errs, _ := ...`), the workers
receive only the mnemonic and the constraints, and `Wait` returns only worker
errors — so `ctxCancelled` does not occur in the body, exactly as in the
code. -/
def generateKeysInParallel (_ctxCancelled : Bool)
    (derive : Nat → Nat → Except SearchError GeneratedKey)
    (sat : GeneratedKey → Bool) (p : SearchParams) (fuel : Nat) :
    Option ((List GeneratedKey × Option SearchError) × Nat) :=
  searchLoopAux derive sat p.numKeys p.numTasks p.taskWidth p.useAccountIndex
    fuel p.startIndex [] 0

/-- Go slice truncation `l[:n]`: defined only when `n ≤ len(l)`, a panic
otherwise. -/
def goSliceTo {α : Type} (l : List α) (n : Nat) : Option (List α) :=
  if n ≤ l.length then some (l.take n) else none

/-- Outcome of the top-level `generateKeys` action: a successful key list, a
returned error, or a runtime panic. -/
inductive GoOutcome where
  | ok (keys : List GeneratedKey)
  | err (e : SearchError)
  | panicked
deriving DecidableEq, Repr

/-- Model of the `generateKeys` action (main.go:48-85), restricted to the
core the spec covers (exporter construction, prompting for the mnemonic and
the export of the results are out-of-scope collaborators, spec §1): validate
the constraints via `newConstraints` — returning the error, with zero
derivation calls, on failure — then run `generateKeysInParallel`, then
truncate the result with `generatedKeys[:cliFlags.numKeys]` (main.go:77).
The second component counts derivation calls performed. -/
def generateKeys (ctxCancelled : Bool)
    (derive : Nat → Nat → Except SearchError GeneratedKey)
    (shardOfActual shardOfProjected : GeneratedKey → Nat)
    (numShards : Nat) (actualShard projectedShard : Option Nat)
    (p : SearchParams) (fuel : Nat) : Option (GoOutcome × Nat) :=
  match newConstraints numShards actualShard projectedShard with
  | .error e => some (.err e, 0)
  | .ok c =>
    match generateKeysInParallel ctxCancelled derive
        (satisfiesConstraints shardOfActual shardOfProjected c) p fuel with
    | none => none
    | some ((_, some e), n) => some (.err e, n)
    | some ((keys, none), n) =>
      match goSliceTo keys p.numKeys with
      | none => some (.panicked, n)
      | some ks => some (.ok ks, n)

/-- Accumulated matches of the search: identical to `searchLoopAux` except
that on loop exit the accumulator `allGeneratedKeys` is returned as is,
without the final sort.  This names the exact, untruncated list of matches
the loop of main.go:131-166 has accumulated when it exits, so that the
returned keys can be stated to be the sort of all of it, truncated only
afterwards. -/
def searchLoopMatches (derive : Nat → Nat → Except SearchError GeneratedKey)
    (sat : GeneratedKey → Bool) (numKeys numTasks taskWidth : Nat) (useAcc : Bool) :
    Nat → Nat → List GeneratedKey → Nat →
      Option ((List GeneratedKey × Option SearchError) × Nat)
  | 0, _slidingIndex, acc, count =>
    if acc.length < numKeys then none
    else some ((acc, none), count)
  | fuel' + 1, slidingIndex, acc, count =>
    if acc.length < numKeys then
      let tn := createTasks numTasks slidingIndex taskWidth useAcc
      let results := tn.1.map (doGenerateKeys derive sat)
      let count' := count + (results.map Prod.snd).sum
      match firstErrorIn (results.map Prod.fst) with
      | some e => some (([], some e), count')
      | none =>
        searchLoopMatches derive sat numKeys numTasks taskWidth useAcc fuel'
          tn.2 (acc ++ (results.map (fun r => okKeys r.1)).flatten) count'
    else
      some ((acc, none), count)

/-- Accumulated (unsorted, untruncated) matches of
`generateKeysInParallel`: the value of `allGeneratedKeys` when the loop
exits, before `inlineSortKeysByIndexes` is applied. -/
def generateKeysMatches (_ctxCancelled : Bool)
    (derive : Nat → Nat → Except SearchError GeneratedKey)
    (sat : GeneratedKey → Bool) (p : SearchParams) (fuel : Nat) :
    Option ((List GeneratedKey × Option SearchError) × Nat) :=
  searchLoopMatches derive sat p.numKeys p.numTasks p.taskWidth p.useAccountIndex
    fuel p.startIndex [] 0

/-- Slot array `generatedKeysByTask` (main.go:132) written in worker
completion order: starting from `numTasks` empty slots, each worker index of
`sched`, in completion order, stores its own (purely task-determined) result
into its own slot `i`. -/
def fillSlots (resultOf : Nat → List GeneratedKey) (numTasks : Nat)
    (sched : List Nat) : List (List GeneratedKey) :=
  sched.foldl (fun slots i => slots.set i (resultOf i)) (List.replicate numTasks [])

/-- Loop of `generateKeysInParallel` with an explicit worker-completion
schedule: `schedules k` lists the worker indexes of iteration `k` in the
order they complete.  Worker results themselves are pure functions of their
task; completion order determines only the order of slot writes and the
order in which the `errgroup` observes errors. -/
def searchLoopSched (derive : Nat → Nat → Except SearchError GeneratedKey)
    (sat : GeneratedKey → Bool) (numKeys numTasks taskWidth : Nat) (useAcc : Bool)
    (schedules : Nat → List Nat) :
    Nat → Nat → Nat → List GeneratedKey → Nat →
      Option ((List GeneratedKey × Option SearchError) × Nat)
  | 0, _iter, _slidingIndex, acc, count =>
    if acc.length < numKeys then none
    else some ((inlineSortKeysByIndexes acc, none), count)
  | fuel' + 1, iter, slidingIndex, acc, count =>
    if acc.length < numKeys then
      let tn := createTasks numTasks slidingIndex taskWidth useAcc
      let results := tn.1.map (doGenerateKeys derive sat)
      let count' := count + (results.map Prod.snd).sum
      let sched := schedules iter
      match firstErrorIn ((sched.filterMap (fun i => results[i]?)).map Prod.fst) with
      | some e => some (([], some e), count')
      | none =>
        let slots := fillSlots
          (fun i => ((results[i]?).map (fun r => okKeys r.1)).getD []) numTasks sched
        searchLoopSched derive sat numKeys numTasks taskWidth useAcc schedules fuel'
          (iter + 1) tn.2 (acc ++ slots.flatten) count'
    else
      some ((inlineSortKeysByIndexes acc, none), count)

/-- Model of `generateKeysInParallel` under an explicit worker-completion
schedule (the context argument is ignored by the code, as in
`generateKeysInParallel`). -/
def generateKeysInParallelSched (_ctxCancelled : Bool)
    (derive : Nat → Nat → Except SearchError GeneratedKey)
    (sat : GeneratedKey → Bool) (schedules : Nat → List Nat)
    (p : SearchParams) (fuel : Nat) :
    Option ((List GeneratedKey × Option SearchError) × Nat) :=
  searchLoopSched derive sat p.numKeys p.numTasks p.taskWidth p.useAccountIndex
    schedules fuel 0 p.startIndex [] 0

/-- Sliding index after `m` successive calls of the allocator, each call fed
the previous call's returned `newSlidingIndex` (spec §4.2). -/
def slidingAfter (numTasks taskWidth : Nat) (useAcc : Bool) (startIndex : Nat) :
    Nat → Nat
  | 0 => startIndex
  | m + 1 => (createTasks numTasks (slidingAfter numTasks taskWidth useAcc startIndex m)
      taskWidth useAcc).2

/-- Derivation indexes of one allocator batch, in task order. -/
def batchIndexes (numTasks slidingIndex taskWidth : Nat) (useAcc : Bool) : List Nat :=
  ((createTasks numTasks slidingIndex taskWidth useAcc).1).flatMap taskIndexes

/-- Derivation indexes of the first `m` successive allocator batches, in
order. -/
def allScannedIndexes (numTasks taskWidth : Nat) (useAcc : Bool)
    (startIndex m : Nat) : List Nat :=
  (List.range m).flatMap fun k =>
    batchIndexes numTasks (slidingAfter numTasks taskWidth useAcc startIndex k)
      taskWidth useAcc

/-! Helper lemmas. -/

lemma length_insertGoRev (x : GeneratedKey) (l : List GeneratedKey) :
    (insertGoRev x l).length = l.length + 1 := by
  induction l with
  | nil => rfl
  | cons y ys ih => by_cases h : lessKeys x y <;> simp [insertGoRev, h, ih]

lemma length_insertionSortGoAux (l rev : List GeneratedKey) :
    (insertionSortGoAux rev l).length = rev.length + l.length := by
  induction l generalizing rev with
  | nil => simp [insertionSortGoAux]
  | cons x rest ih =>
    rw [insertionSortGoAux, ih, length_insertGoRev, List.length_cons]
    omega

lemma length_inlineSortKeysByIndexes (l : List GeneratedKey) :
    (inlineSortKeysByIndexes l).length = l.length := by
  rw [inlineSortKeysByIndexes, length_insertionSortGoAux]
  simp

/-! Theorems for the claims. -/

/-- C1: the claim states that every successful search returns keys sorted
ascending by `(accountIndex, addressIndex)` under a correct
(non-contradictory, transitive, irreflexive) lexicographic total order.  The
comparator of `inlineSortKeysByIndexes` is not such an order: for
`a = (account 1, address 0)` and `b = (account 0, address 1)` it judges both
`a < b` and `b < a` (it consults the address index even when the account
indices differ), and feeding the already lexicographically sorted list
`[(0,0), (1,5), (2,0)]` through the sort that `sort.Slice` performs on it
yields `[(0,0), (2,0), (1,5)]`, which is not lexicographically sorted. -/
theorem c1_comparator_not_lexicographic :
    lessKeys ⟨1, 0, [], []⟩ ⟨0, 1, [], []⟩ = true ∧
    lessKeys ⟨0, 1, [], []⟩ ⟨1, 0, [], []⟩ = true ∧
    inlineSortKeysByIndexes [⟨0, 0, [], []⟩, ⟨1, 5, [], []⟩, ⟨2, 0, [], []⟩] =
      [⟨0, 0, [], []⟩, ⟨2, 0, [], []⟩, ⟨1, 5, [], []⟩] ∧
    keysSortedLex [⟨0, 0, [], []⟩, ⟨2, 0, [], []⟩, ⟨1, 5, [], []⟩] = false ∧
    keysSortedLex [⟨0, 0, [], []⟩, ⟨1, 5, [], []⟩, ⟨2, 0, [], []⟩] = true := by
  decide

/-- C7 counterexample: the claim states that a triggered cancellation signal
makes the search return a cancellation error and discard accumulated
progress.  With the signal triggered (`ctxCancelled = true`) from before the
first iteration, the search nevertheless runs to completion and returns its
keys with a nil error — not a cancellation error and with nothing
discarded. -/
theorem c7_cancellation_ignored_counterexample :
    generateKeysInParallel true (fun a d => .ok ⟨a, d, [], []⟩) (fun _ => true)
      ⟨1, 1, 0, 1, true⟩ 1 =
      some (([⟨0, 0, [], []⟩], none), 1) := by
  decide

/-- C7 amended: the search accepts the externally supplied cancellation
signal but never consults it (main.go:137 discards the context derived by
`errgroup.WithContext`, and the workers receive only the mnemonic and the
constraints), so its outcome — keys, error and derivation count alike — is
identical whether or not the signal is triggered; no cancellation error is
ever produced by it and accumulated progress is kept. -/
theorem c7_cancellation_signal_never_consulted (c₁ c₂ : Bool)
    (derive : Nat → Nat → Except SearchError GeneratedKey)
    (sat : GeneratedKey → Bool)
    (shardOfActual shardOfProjected : GeneratedKey → Nat)
    (numShards : Nat) (actualShard projectedShard : Option Nat)
    (p : SearchParams) (fuel : Nat) :
    generateKeysInParallel c₁ derive sat p fuel =
      generateKeysInParallel c₂ derive sat p fuel ∧
    generateKeys c₁ derive shardOfActual shardOfProjected numShards actualShard
        projectedShard p fuel =
      generateKeys c₂ derive shardOfActual shardOfProjected numShards actualShard
        projectedShard p fuel :=
  ⟨rfl, rfl⟩

/-- C8: with `numKeys = 0` the loop condition
`len(allGeneratedKeys) < numKeys` is false at once, so the loop body is
never entered — even with zero fuel the search returns — the result is the
empty list with a nil error, and the derivation-call count is zero. -/
theorem c8_zero_keys_immediate_empty (ctx : Bool)
    (derive : Nat → Nat → Except SearchError GeneratedKey)
    (sat : GeneratedKey → Bool)
    (numTasks startIndex taskWidth : Nat) (u : Bool) (fuel : Nat) :
    generateKeysInParallel ctx derive sat
      ⟨0, numTasks, startIndex, taskWidth, u⟩ fuel = some (([], none), 0) := by
  cases fuel with
  | zero => rw [generateKeysInParallel, searchLoopAux]; rfl
  | succ f => rw [generateKeysInParallel, searchLoopAux]; rfl

lemma searchLoopAux_zero_tasks (derive : Nat → Nat → Except SearchError GeneratedKey)
    (sat : GeneratedKey → Bool) (numKeys taskWidth : Nat) (u : Bool)
    (h : 1 ≤ numKeys) :
    ∀ fuel s c, searchLoopAux derive sat numKeys 0 taskWidth u fuel s [] c = none := by
  intro fuel
  induction fuel with
  | zero =>
    intro s c
    rw [searchLoopAux]
    have h0 : ([] : List GeneratedKey).length < numKeys := by simpa using h
    rw [if_pos h0]
  | succ f ih =>
    intro s c
    rw [searchLoopAux]
    have h0 : ([] : List GeneratedKey).length < numKeys := by simpa using h
    simp only [if_pos h0]
    simp [createTasks, firstErrorIn, ih]

/-- C10: with `numTasks = 0` and at least one key requested, every iteration
creates no tasks, appends nothing, and leaves the loop condition true, so
`generateKeysInParallel` never terminates: for every fuel bound the loop has
not returned.  Every batch is empty and leaves the sliding index unchanged. -/
theorem c10_zero_tasks_never_terminates (ctx : Bool)
    (derive : Nat → Nat → Except SearchError GeneratedKey)
    (sat : GeneratedKey → Bool)
    (numKeys startIndex taskWidth : Nat) (u : Bool) (h : 1 ≤ numKeys) :
    (∀ fuel, generateKeysInParallel ctx derive sat
      ⟨numKeys, 0, startIndex, taskWidth, u⟩ fuel = none) ∧
    ∀ s, (createTasks 0 s taskWidth u).1 = [] ∧ (createTasks 0 s taskWidth u).2 = s := by
  constructor
  · intro fuel
    rw [generateKeysInParallel]
    exact searchLoopAux_zero_tasks derive sat numKeys taskWidth u h fuel startIndex 0
  · intro s
    constructor
    · rfl
    · simp [createTasks]

lemma newConstraints_invalid {numShards : Nat} {a p : Option Nat}
    (h : numShards < 1 ∨ shardOk numShards a = false ∨ shardOk numShards p = false) :
    newConstraints numShards a p = .error .configurationError := by
  rw [newConstraints]
  rcases h with h | h | h
  · simp [h]
  · by_cases h1 : numShards < 1 <;> simp [h1, h]
  · by_cases h1 : numShards < 1
    · simp [h1]
    · by_cases h2 : shardOk numShards a <;> simp [h1, h2, h]

/-- C6: an invalid configuration (an `actualShard` or `projectedShard`
inconsistent with `numShards`, or `numShards = 0`) is rejected by the
constraint validation that `generateKeys` performs before the search is
started (main.go:50-53): the configuration error is returned and the count
of derivation calls performed is zero. -/
theorem c6_invalid_config_rejected_before_derivation (ctx : Bool)
    (derive : Nat → Nat → Except SearchError GeneratedKey)
    (shardOfActual shardOfProjected : GeneratedKey → Nat) (numShards : Nat)
    (actualShard projectedShard : Option Nat) (p : SearchParams) (fuel : Nat)
    (h : numShards < 1 ∨ shardOk numShards actualShard = false ∨
      shardOk numShards projectedShard = false) :
    generateKeys ctx derive shardOfActual shardOfProjected numShards actualShard
      projectedShard p fuel = some (.err .configurationError, 0) := by
  rw [generateKeys, newConstraints_invalid h]

/-- C6 witness: scenario B of the spec — `actualShard = 5` with
`numShards = 2` yields the configuration error with zero derivation calls. -/
theorem c6_witness :
    ((2 : Nat) < 1 ∨ shardOk 2 (some 5) = false ∨ shardOk 2 none = false) ∧
    generateKeys false (fun a d => .ok ⟨a, d, [], []⟩) (fun _ => 0) (fun _ => 0)
      2 (some 5) none ⟨3, 1, 0, 1, true⟩ 2 = some (.err .configurationError, 0) :=
  ⟨by decide, c6_invalid_config_rejected_before_derivation false
    (fun a d => .ok ⟨a, d, [], []⟩) (fun _ => 0) (fun _ => 0)
    2 (some 5) none ⟨3, 1, 0, 1, true⟩ 2 (by decide)⟩

lemma searchLoopAux_success (derive : Nat → Nat → Except SearchError GeneratedKey)
    (sat : GeneratedKey → Bool) (numKeys numTasks taskWidth : Nat) (u : Bool) :
    ∀ fuel s acc c keys n,
      searchLoopAux derive sat numKeys numTasks taskWidth u fuel s acc c =
        some ((keys, none), n) →
      ∃ a : List GeneratedKey, keys = inlineSortKeysByIndexes a ∧ numKeys ≤ a.length := by
  intro fuel
  induction fuel with
  | zero =>
    intro s acc c keys n h
    rw [searchLoopAux] at h
    by_cases hc : acc.length < numKeys
    · simp [hc] at h
    · simp only [if_neg hc, Option.some.injEq, Prod.mk.injEq] at h
      exact ⟨acc, h.1.1.symm, Nat.le_of_not_lt hc⟩
  | succ f ih =>
    intro s acc c keys n h
    rw [searchLoopAux] at h
    by_cases hc : acc.length < numKeys
    · simp only [if_pos hc] at h
      split at h
      · simp at h
      · exact ih _ _ _ _ _ h
    · simp only [if_neg hc, Option.some.injEq, Prod.mk.injEq] at h
      exact ⟨acc, h.1.1.symm, Nat.le_of_not_lt hc⟩

/-- C9: on every successful return of `generateKeysInParallel` the returned
slice holds at least `numKeys` keys (the loop exits only once the
accumulator has reached `numKeys`, and the final sort preserves length), so
the caller's truncation `generatedKeys[:cliFlags.numKeys]` (main.go:77) is
within bounds and does not panic. -/
theorem c9_truncation_always_in_bounds (ctx : Bool)
    (derive : Nat → Nat → Except SearchError GeneratedKey)
    (sat : GeneratedKey → Bool) (p : SearchParams) (fuel : Nat)
    (keys : List GeneratedKey) (n : Nat)
    (h : generateKeysInParallel ctx derive sat p fuel = some ((keys, none), n)) :
    p.numKeys ≤ keys.length ∧ goSliceTo keys p.numKeys = some (keys.take p.numKeys) := by
  rw [generateKeysInParallel] at h
  obtain ⟨a, hk, hlen⟩ :=
    searchLoopAux_success derive sat p.numKeys p.numTasks p.taskWidth
      p.useAccountIndex fuel _ _ _ _ _ h
  have hl : keys.length = a.length := by rw [hk, length_inlineSortKeysByIndexes]
  refine ⟨by omega, ?_⟩
  rw [goSliceTo, if_pos (by omega)]

/-- C9 witness: a concrete successful one-iteration search with one
requested key. -/
theorem c9_witness :
    generateKeysInParallel false (fun a d => .ok ⟨a, d, [], []⟩) (fun _ => true)
      ⟨1, 1, 0, 1, true⟩ 1 = some (([⟨0, 0, [], []⟩], none), 1) ∧
    (1 ≤ [(⟨0, 0, [], []⟩ : GeneratedKey)].length ∧
      goSliceTo [(⟨0, 0, [], []⟩ : GeneratedKey)] 1 =
        some ([(⟨0, 0, [], []⟩ : GeneratedKey)].take 1)) :=
  ⟨by decide, c9_truncation_always_in_bounds false
    (fun a d => .ok ⟨a, d, [], []⟩) (fun _ => true)
    ⟨1, 1, 0, 1, true⟩ 1 [⟨0, 0, [], []⟩] 1 (by decide)⟩

lemma searchLoopAux_success_eq_sort_matches
    (derive : Nat → Nat → Except SearchError GeneratedKey)
    (sat : GeneratedKey → Bool) (numKeys numTasks taskWidth : Nat) (u : Bool) :
    ∀ fuel s acc c keys n,
      searchLoopAux derive sat numKeys numTasks taskWidth u fuel s acc c =
        some ((keys, none), n) →
      ∃ m : List GeneratedKey,
        searchLoopMatches derive sat numKeys numTasks taskWidth u fuel s acc c =
          some ((m, none), n) ∧
        keys = inlineSortKeysByIndexes m ∧ numKeys ≤ m.length := by
  intro fuel
  induction fuel with
  | zero =>
    intro s acc c keys n h
    rw [searchLoopAux] at h
    rw [searchLoopMatches]
    by_cases hc : acc.length < numKeys
    · simp [hc] at h
    · simp only [if_neg hc, Option.some.injEq, Prod.mk.injEq] at h
      exact ⟨acc, by rw [if_neg hc, h.2], h.1.1.symm, Nat.le_of_not_lt hc⟩
  | succ f ih =>
    intro s acc c keys n h
    rw [searchLoopAux] at h
    rw [searchLoopMatches]
    by_cases hc : acc.length < numKeys
    · simp only [if_pos hc] at h ⊢
      split at h
      · simp at h
      · exact ih _ _ _ _ _ h
    · simp only [if_neg hc, Option.some.injEq, Prod.mk.injEq] at h
      exact ⟨acc, by rw [if_neg hc, h.2], h.1.1.symm, Nat.le_of_not_lt hc⟩

lemma goSliceTo_eq_some {α : Type} {l r : List α} {n : Nat}
    (h : goSliceTo l n = some r) : n ≤ l.length ∧ r = l.take n := by
  rw [goSliceTo] at h
  split at h
  · exact ⟨by assumption, (Option.some.inj h).symm⟩
  · exact absurd h (by simp)

/-- C2: whenever `generateKeys` returns keys successfully, their number is
exactly `numKeys`, and they are the first `numKeys` elements of the sort of
the full accumulated match list — the value `generateKeysMatches` the loop
has accumulated at exit, untruncated.  The accumulator is sorted first, in
whole, inside `generateKeysInParallel` (main.go:168) and truncated only
afterwards by the caller (main.go:77): sort-then-cut, never
cut-then-sort. -/
theorem c2_exact_count_sort_then_cut (ctx : Bool)
    (derive : Nat → Nat → Except SearchError GeneratedKey)
    (shardOfActual shardOfProjected : GeneratedKey → Nat) (numShards : Nat)
    (actualShard projectedShard : Option Nat) (p : SearchParams) (fuel : Nat)
    (keys : List GeneratedKey) (n : Nat) (cst : Constraints)
    (hcst : newConstraints numShards actualShard projectedShard = .ok cst)
    (h : generateKeys ctx derive shardOfActual shardOfProjected numShards
      actualShard projectedShard p fuel = some (.ok keys, n)) :
    keys.length = p.numKeys ∧
    ∃ m : List GeneratedKey,
      generateKeysMatches ctx derive
        (satisfiesConstraints shardOfActual shardOfProjected cst) p fuel =
        some ((m, none), n) ∧
      p.numKeys ≤ m.length ∧
      keys = (inlineSortKeysByIndexes m).take p.numKeys := by
  rw [generateKeys] at h
  split at h
  · simp at h
  · split at h
    · simp at h
    · simp at h
    · split at h
      · simp at h
      · rename_i ex cst0 heqc scr2 ks cnt hrun scr3 r hslice
        have hcc : cst0 = cst := by
          rw [heqc] at hcst
          exact Except.ok.inj hcst
        subst hcc
        simp only [Option.some.injEq, Prod.mk.injEq, GoOutcome.ok.injEq] at h
        rw [generateKeysInParallel] at hrun
        obtain ⟨m, hm, hk, hlen⟩ :=
          searchLoopAux_success_eq_sort_matches derive
            (satisfiesConstraints shardOfActual shardOfProjected cst0)
            p.numKeys p.numTasks p.taskWidth p.useAccountIndex fuel _ _ _ _ _ hrun
        obtain ⟨hle, hr⟩ := goSliceTo_eq_some hslice
        have hlks : ks.length = m.length := by rw [hk, length_inlineSortKeysByIndexes]
        have hkeys : keys = (inlineSortKeysByIndexes m).take p.numKeys := by
          rw [← h.1, hr, hk]
        refine ⟨?_, m, ?_, hlen, hkeys⟩
        · rw [hkeys, List.length_take, length_inlineSortKeysByIndexes]
          omega
        · rw [generateKeysMatches, ← h.2]
          exact hm

/-- C2 witness: a concrete successful run returning exactly the one
requested key, the first element of the sort of the full accumulated match
list. -/
theorem c2_witness :
    newConstraints 1 none none = .ok ⟨1, none, none⟩ ∧
    generateKeys false (fun a d => .ok ⟨a, d, [], []⟩) (fun _ => 0) (fun _ => 0)
      1 none none ⟨1, 1, 0, 1, true⟩ 1 = some (.ok [⟨0, 0, [], []⟩], 1) ∧
    ([(⟨0, 0, [], []⟩ : GeneratedKey)].length = 1 ∧
      ∃ m : List GeneratedKey,
        generateKeysMatches false (fun a d => .ok ⟨a, d, [], []⟩)
          (satisfiesConstraints (fun _ => 0) (fun _ => 0) ⟨1, none, none⟩)
          ⟨1, 1, 0, 1, true⟩ 1 = some ((m, none), 1) ∧
        1 ≤ m.length ∧
        [(⟨0, 0, [], []⟩ : GeneratedKey)] = (inlineSortKeysByIndexes m).take 1) :=
  ⟨rfl, by decide, c2_exact_count_sort_then_cut false
    (fun a d => .ok ⟨a, d, [], []⟩) (fun _ => 0) (fun _ => 0)
    1 none none ⟨1, 1, 0, 1, true⟩ 1 [⟨0, 0, [], []⟩] 1 ⟨1, none, none⟩
    rfl (by decide)⟩

/-- C3: if the results of the workers of the current iteration contain an
error, the search returns at once with the first such error (`return nil,
err`, main.go:153-156): nothing is recursed into, the accumulator and the
keys found by the failing iteration's workers are both discarded, and the
keys component of the result is empty. -/
theorem c3_fail_fast_discards_everything
    (derive : Nat → Nat → Except SearchError GeneratedKey)
    (sat : GeneratedKey → Bool) (numKeys numTasks taskWidth : Nat) (u : Bool)
    (fuel s c : Nat) (acc : List GeneratedKey) (e : SearchError)
    (hlt : acc.length < numKeys)
    (he : firstErrorIn ((((createTasks numTasks s taskWidth u).1).map
        (doGenerateKeys derive sat)).map Prod.fst) = some e) :
    searchLoopAux derive sat numKeys numTasks taskWidth u (fuel + 1) s acc c =
      some (([], some e),
        c + ((((createTasks numTasks s taskWidth u).1).map
          (doGenerateKeys derive sat)).map Prod.snd).sum) := by
  rw [searchLoopAux]
  simp only [if_pos hlt, he]

/-- C3 witness: one worker whose very first derivation fails aborts the
search with that derivation error, an empty key list, and the accumulator
(here holding one previously found key) discarded. -/
theorem c3_witness :
    [(⟨9, 9, [], []⟩ : GeneratedKey)].length < 2 ∧
    firstErrorIn ((((createTasks 1 0 1 true).1).map
      (doGenerateKeys (fun a d => .error (.derivationError a d))
        (fun _ => true))).map Prod.fst) = some (.derivationError 0 0) ∧
    searchLoopAux (fun a d => .error (.derivationError a d)) (fun _ => true)
      2 1 1 true 1 0 [⟨9, 9, [], []⟩] 0 =
      some (([], some (.derivationError 0 0)), 1) :=
  ⟨by decide, by decide,
    c3_fail_fast_discards_everything (fun a d => .error (.derivationError a d))
      (fun _ => true) 2 1 1 true 0 0 0 [⟨9, 9, [], []⟩]
      (.derivationError 0 0) (by decide) (by decide)⟩

lemma taskIndexes_mk (s w : Nat) (u : Bool) (i : Nat) :
    taskIndexes ⟨s + i * w, s + (i + 1) * w, u⟩ = List.range' (s + i * w) w := by
  rw [taskIndexes]
  have hd : s + (i + 1) * w - (s + i * w) = w := by
    rw [Nat.add_mul, Nat.one_mul]
    omega
  rw [hd]

lemma batchIndexes_eq (numTasks s w : Nat) (u : Bool) :
    batchIndexes numTasks s w u = List.range' s (numTasks * w) := by
  induction numTasks with
  | zero => simp [batchIndexes, createTasks]
  | succ m ih =>
    rw [batchIndexes, createTasks] at ih ⊢
    simp only [List.range_succ, List.map_append, List.flatMap_append,
      List.map_cons, List.map_nil, List.flatMap_cons, List.flatMap_nil] at ih ⊢
    rw [ih, taskIndexes_mk, List.append_nil, List.range'_append_1]
    congr 1
    ring

lemma slidingAfter_eq (numTasks w : Nat) (u : Bool) (s0 : Nat) (m : Nat) :
    slidingAfter numTasks w u s0 m = s0 + m * (numTasks * w) := by
  induction m with
  | zero => simp [slidingAfter]
  | succ k ih =>
    rw [slidingAfter, ih, createTasks]
    simp only []
    rw [Nat.succ_mul]
    omega

lemma allScannedIndexes_eq (numTasks w : Nat) (u : Bool) (s0 m : Nat) :
    allScannedIndexes numTasks w u s0 m = List.range' s0 (m * (numTasks * w)) := by
  induction m with
  | zero => simp [allScannedIndexes]
  | succ k ih =>
    rw [allScannedIndexes] at ih ⊢
    rw [List.range_succ, List.flatMap_append, ih, List.flatMap_cons, List.flatMap_nil,
      List.append_nil, batchIndexes_eq, slidingAfter_eq, List.range'_append_1]
    congr 1
    ring

lemma indexToPair_injective (u : Bool) : Function.Injective (indexToPair u) := by
  intro a b h
  cases u <;> simpa [indexToPair] using h

/-- C5: feeding each allocator call the previous call's returned sliding
index, the `m` batches produced cover exactly the half-open interval
`[startIndex, startIndex + m*numTasks*taskWidth)`, in increasing contiguous
order with no gap and no repeat; every call advances the sliding index by
exactly `numTasks*taskWidth`; and the derivation-index pairs scanned across
the whole search are pairwise distinct — no pair is ever evaluated twice. -/
theorem c5_allocator_partitions_without_overlap
    (numTasks taskWidth startIndex m : Nat) (u : Bool) :
    batchIndexes numTasks startIndex taskWidth u =
      List.range' startIndex (numTasks * taskWidth) ∧
    (createTasks numTasks startIndex taskWidth u).2 =
      startIndex + numTasks * taskWidth ∧
    slidingAfter numTasks taskWidth u startIndex m =
      startIndex + m * (numTasks * taskWidth) ∧
    allScannedIndexes numTasks taskWidth u startIndex m =
      List.range' startIndex (m * (numTasks * taskWidth)) ∧
    ((allScannedIndexes numTasks taskWidth u startIndex m).map (indexToPair u)).Nodup := by
  refine ⟨batchIndexes_eq _ _ _ _, rfl, slidingAfter_eq _ _ _ _ _,
    allScannedIndexes_eq _ _ _ _ _, ?_⟩
  rw [allScannedIndexes_eq]
  exact (List.nodup_range' _ _).map (indexToPair_injective u)

/-- C10 witness: one requested key and zero tasks — the search has not
returned after three iterations worth of fuel (nor after any other). -/
theorem c10_witness :
    1 ≤ 1 ∧ generateKeysInParallel false (fun a d => .ok ⟨a, d, [], []⟩)
      (fun _ => true) ⟨1, 0, 0, 1, true⟩ 3 = none :=
  ⟨by decide, (c10_zero_tasks_never_terminates false (fun a d => .ok ⟨a, d, [], []⟩)
    (fun _ => true) 1 0 1 true (by decide)).1 3⟩

lemma length_foldl_set {α : Type} (g : Nat → α) (s : List Nat) (init : List α) :
    (s.foldl (fun sl i => sl.set i (g i)) init).length = init.length := by
  induction s generalizing init with
  | nil => rfl
  | cons i t ih => rw [List.foldl_cons, ih, List.length_set]

lemma getElem?_foldl_set {α : Type} (g : Nat → α) (s : List Nat) (init : List α) (j : Nat) :
    (s.foldl (fun sl i => sl.set i (g i)) init)[j]? =
      if j ∈ s ∧ j < init.length then some (g j) else init[j]? := by
  induction s generalizing init with
  | nil => simp
  | cons i t ih =>
    rw [List.foldl_cons, ih]
    by_cases hjt : j ∈ t
    · by_cases hjl : j < init.length
      · simp [hjt, hjl]
      · rw [if_neg (by simp [hjt, hjl]), if_neg (by simp [hjl]),
          List.getElem?_eq_none (l := init) (Nat.le_of_not_lt hjl),
          List.getElem?_eq_none (by simpa using Nat.le_of_not_lt hjl)]
    · by_cases hij : i = j
      · subst hij
        by_cases hil : i < init.length
        · rw [if_neg (by simp [hjt]), if_pos (by simp [hil]),
            List.getElem?_set_self hil]
        · rw [if_neg (by simp [hjt]), if_neg (by simp [hil]),
            List.getElem?_eq_none (l := init) (Nat.le_of_not_lt hil),
            List.getElem?_eq_none (by simpa using Nat.le_of_not_lt hil)]
      · rw [List.getElem?_set_ne hij]
        by_cases hjl : j < init.length
        · by_cases hjc : j ∈ i :: t
          · rcases List.mem_cons.mp hjc with h1 | h1
            · exact absurd h1.symm hij
            · exact absurd h1 hjt
          · rw [if_neg (by simp [hjt]), if_neg (fun hand => hjc hand.1)]
        · rw [if_neg (by simp [hjt, hjl]), if_neg (by simp [hjl])]

lemma fillSlots_covered (resultOf : Nat → List GeneratedKey) (numTasks : Nat)
    (sched : List Nat) (hcov : ∀ j, j < numTasks → j ∈ sched) :
    fillSlots resultOf numTasks sched = (List.range numTasks).map resultOf := by
  apply List.ext_getElem?
  intro j
  rw [fillSlots, getElem?_foldl_set, List.getElem?_map, List.length_replicate]
  by_cases hj : j < numTasks
  · rw [if_pos ⟨hcov j hj, hj⟩, List.getElem?_range hj]
    rfl
  · rw [if_neg (fun hand => hj hand.2),
      List.getElem?_eq_none (l := List.replicate numTasks []) (by simpa using Nat.le_of_not_lt hj),
      List.getElem?_eq_none (l := List.range numTasks) (by simpa using Nat.le_of_not_lt hj)]
    rfl

lemma range_map_get_eq_map {α β : Type} (l : List α) (g : α → β) (d : β) :
    (List.range l.length).map (fun i => ((l[i]?).map g).getD d) = l.map g := by
  apply List.ext_getElem?
  intro j
  rw [List.getElem?_map, List.getElem?_map]
  by_cases hj : j < l.length
  · rw [List.getElem?_range hj, List.getElem?_eq_getElem hj]
    simp [List.getElem?_eq_getElem hj]
  · rw [List.getElem?_eq_none (l := List.range l.length) (by simpa using Nat.le_of_not_lt hj),
      List.getElem?_eq_none (l := l) (Nat.le_of_not_lt hj)]
    rfl

lemma fillSlots_eq_map (results : List (Except SearchError (List GeneratedKey) × Nat))
    (numTasks : Nat) (sched : List Nat) (hlen : results.length = numTasks)
    (hcov : ∀ j, j ∈ sched ↔ j < numTasks) :
    fillSlots (fun i => ((results[i]?).map (fun r => okKeys r.1)).getD []) numTasks sched =
      results.map (fun r => okKeys r.1) := by
  subst hlen
  rw [fillSlots_covered _ _ _ (fun j hj => (hcov j).mpr hj)]
  exact range_map_get_eq_map results _ []

lemma firstErrorIn_eq_none_iff (l : List (Except SearchError (List GeneratedKey))) :
    firstErrorIn l = none ↔ ∀ x ∈ l, ∀ e, x ≠ .error e := by
  induction l with
  | nil => simp [firstErrorIn]
  | cons x t ih =>
    cases x with
    | error e =>
      simp only [firstErrorIn]
      constructor
      · intro h
        exact Option.noConfusion h
      · intro h
        exact absurd rfl (h _ (List.mem_cons_self _ _) e)
    | ok ks =>
      simp only [firstErrorIn, ih]
      constructor
      · intro h x hx e
        rcases List.mem_cons.mp hx with h1 | h1
        · subst h1
          exact fun hk => Except.noConfusion hk
        · exact h x h1 e
      · intro h x hx e
        exact h x (List.mem_cons_of_mem _ hx) e

lemma mem_sched_filterMap (l : List (Except SearchError (List GeneratedKey) × Nat))
    (numTasks : Nat) (sched : List Nat) (hlen : l.length = numTasks)
    (hcov : ∀ j, j ∈ sched ↔ j < numTasks)
    (x : Except SearchError (List GeneratedKey) × Nat) :
    x ∈ sched.filterMap (fun i => l[i]?) ↔ x ∈ l := by
  subst hlen
  rw [List.mem_filterMap]
  constructor
  · rintro ⟨i, _hi, hget⟩
    exact List.getElem?_mem hget
  · intro hx
    obtain ⟨i, hget⟩ := List.mem_iff_getElem?.mp hx
    obtain ⟨hi, _⟩ := List.getElem?_eq_some_iff.mp hget
    exact ⟨i, (hcov i).mpr hi, hget⟩

lemma firstErrorSched_none_iff (results : List (Except SearchError (List GeneratedKey) × Nat))
    (numTasks : Nat) (sched : List Nat) (hlen : results.length = numTasks)
    (hcov : ∀ j, j ∈ sched ↔ j < numTasks) :
    (firstErrorIn ((sched.filterMap (fun i => results[i]?)).map Prod.fst) = none ↔
      firstErrorIn (results.map Prod.fst) = none) := by
  rw [firstErrorIn_eq_none_iff, firstErrorIn_eq_none_iff]
  constructor <;> intro h x hx e
  · rw [List.mem_map] at hx
    obtain ⟨r, hr, hrx⟩ := hx
    exact h x (List.mem_map.mpr
      ⟨r, (mem_sched_filterMap results numTasks sched hlen hcov r).mpr hr, hrx⟩) e
  · rw [List.mem_map] at hx
    obtain ⟨r, hr, hrx⟩ := hx
    exact h x (List.mem_map.mpr
      ⟨r, (mem_sched_filterMap results numTasks sched hlen hcov r).mp hr, hrx⟩) e

lemma searchLoopSched_success_eq (derive : Nat → Nat → Except SearchError GeneratedKey)
    (sat : GeneratedKey → Bool) (numKeys numTasks taskWidth : Nat) (u : Bool)
    (schedules : Nat → List Nat) (hs : ∀ k j, j ∈ schedules k ↔ j < numTasks) :
    ∀ fuel iter s acc c keys n,
      searchLoopSched derive sat numKeys numTasks taskWidth u schedules fuel iter s acc c =
        some ((keys, none), n) →
      searchLoopAux derive sat numKeys numTasks taskWidth u fuel s acc c =
        some ((keys, none), n) := by
  intro fuel
  induction fuel with
  | zero =>
    intro iter s acc c keys n h
    rw [searchLoopSched] at h
    rw [searchLoopAux]
    exact h
  | succ f ih =>
    intro iter s acc c keys n h
    rw [searchLoopSched] at h
    rw [searchLoopAux]
    by_cases hc : acc.length < numKeys
    · simp only [if_pos hc] at h ⊢
      have hlen : (((createTasks numTasks s taskWidth u).1).map
          (doGenerateKeys derive sat)).length = numTasks := by
        rw [createTasks]
        simp
      split at h
      · simp at h
      · rename_i heq
        have hcanon := (firstErrorSched_none_iff _ numTasks _ hlen (hs iter)).mp heq
        rw [fillSlots_eq_map _ numTasks (schedules iter) hlen (hs iter)] at h
        split
        · rename_i e heq2
          rw [hcanon] at heq2
          exact Option.noConfusion heq2
        · exact ih (iter + 1) _ _ _ _ _ h
    · simp only [if_neg hc] at h ⊢
      exact h

/-- C4: worker scheduling never influences a successful result.  Per-task
results are pure functions of the task, each worker writes only its own slot
of `generatedKeysByTask`, and the slots are concatenated in worker-index
order (main.go:158-161), so two runs of the search with identical derive
function (seed), constraint predicate, and parameters produce identical
ordered output — keys and derivation count alike — under any two worker
completion orders (any schedules covering each worker exactly). -/
theorem c4_result_independent_of_worker_schedule (ctx₁ ctx₂ : Bool)
    (derive : Nat → Nat → Except SearchError GeneratedKey)
    (sat : GeneratedKey → Bool) (σ τ : Nat → List Nat)
    (p : SearchParams) (fuel : Nat) (keys keys' : List GeneratedKey) (n n' : Nat)
    (hσ : ∀ k j, j ∈ σ k ↔ j < p.numTasks)
    (hτ : ∀ k j, j ∈ τ k ↔ j < p.numTasks)
    (h₁ : generateKeysInParallelSched ctx₁ derive sat σ p fuel = some ((keys, none), n))
    (h₂ : generateKeysInParallelSched ctx₂ derive sat τ p fuel = some ((keys', none), n')) :
    keys = keys' ∧ n = n' ∧
      generateKeysInParallelSched ctx₁ derive sat σ p fuel =
        generateKeysInParallelSched ctx₂ derive sat τ p fuel := by
  rw [generateKeysInParallelSched] at h₁ h₂
  have e₁ := searchLoopSched_success_eq derive sat p.numKeys p.numTasks p.taskWidth
    p.useAccountIndex σ hσ fuel 0 p.startIndex [] 0 keys n h₁
  have e₂ := searchLoopSched_success_eq derive sat p.numKeys p.numTasks p.taskWidth
    p.useAccountIndex τ hτ fuel 0 p.startIndex [] 0 keys' n' h₂
  rw [e₁] at e₂
  simp only [Option.some.injEq, Prod.mk.injEq] at e₂
  refine ⟨e₂.1.1, e₂.2, ?_⟩
  rw [generateKeysInParallelSched, generateKeysInParallelSched, h₁, h₂,
    e₂.1.1, e₂.2]

/-- C4 witness: two schedules of a two-worker iteration, one completing in
order `0,1`, the other in order `1,0`, produce the same successful result. -/
theorem c4_witness :
    generateKeysInParallelSched false (fun a d => .ok ⟨a, d, [], []⟩) (fun _ => true)
      (fun _ => [0, 1]) ⟨1, 2, 0, 1, true⟩ 1 =
      some (([⟨0, 0, [], []⟩, ⟨1, 0, [], []⟩], none), 2) ∧
    generateKeysInParallelSched false (fun a d => .ok ⟨a, d, [], []⟩) (fun _ => true)
      (fun _ => [1, 0]) ⟨1, 2, 0, 1, true⟩ 1 =
      some (([⟨0, 0, [], []⟩, ⟨1, 0, [], []⟩], none), 2) ∧
    ([(⟨0, 0, [], []⟩ : GeneratedKey), ⟨1, 0, [], []⟩] =
        [(⟨0, 0, [], []⟩ : GeneratedKey), ⟨1, 0, [], []⟩] ∧ (2 : Nat) = 2 ∧
      generateKeysInParallelSched false (fun a d => .ok ⟨a, d, [], []⟩) (fun _ => true)
        (fun _ => [0, 1]) ⟨1, 2, 0, 1, true⟩ 1 =
      generateKeysInParallelSched false (fun a d => .ok ⟨a, d, [], []⟩) (fun _ => true)
        (fun _ => [1, 0]) ⟨1, 2, 0, 1, true⟩ 1) :=
  ⟨by decide, by decide,
    c4_result_independent_of_worker_schedule false false
      (fun a d => .ok ⟨a, d, [], []⟩) (fun _ => true)
      (fun _ => [0, 1]) (fun _ => [1, 0]) ⟨1, 2, 0, 1, true⟩ 1
      [⟨0, 0, [], []⟩, ⟨1, 0, [], []⟩] [⟨0, 0, [], []⟩, ⟨1, 0, [], []⟩] 2 2
      (by intro k j; simp; omega) (by intro k j; simp; omega)
      (by decide) (by decide)⟩

end HDKeysGenerator
